import Mathlib

/-!
Shallow embedding of the UTXO-set scan and snapshot-export subsystem of
`src/rpc/blockchain.cpp` (functions `FindScriptPubKey`, class
`CoinsViewScanReserver`, RPC handlers `scantxoutset` and `dumptxoutset`,
and `CreateUTXOSnapshot`).

Modelling conventions:
* A database cursor positioned over the coin store is embedded as the list
  of entries it will yield, in the store's native (lexicographic) key
  order.  `GetKey`/`GetValue` can fail on a record, so an entry carries
  `Option` components.
* The shared atomics `g_scan_progress`, `g_scan_in_progress` and
  `g_should_abort_scan` are gathered into an explicit `ScanState` record
  that the operations pass and return.
* A concurrent `abort`/shutdown signal observed by the scan loop at its
  checkpoints is modelled as a function of the running record count
  (`should_abort : Nat → Bool`); likewise the `rpc_interruption_point`
  of the snapshot loop (`shutdown : Nat → Bool`, which is `true` where
  the callback would throw).
* Machine arithmetic: the progress estimate
  `(int)(high * 100.0 / 65536.0 + 0.5)` is computed exactly in double
  precision for every `high < 65536` (the numerator is below `2^23`, and
  division by the power of two `65536` and the addition of `0.5` are
  exact), so it is embedded as the integer `(high * 100 + 32768) / 65536`.
* The filesystem touched by `dumptxoutset` is an association list from
  path strings to file contents.
-/

set_option autoImplicit false

/-- A script (`CScript`): a byte vector. -/
abbrev Script := List Nat

/-- `COutPoint`: transaction id plus output index.  `hash` is the byte
sequence in the order it is serialized into the database key, so the
store's iteration order is lexicographic on it. -/
structure COutPoint where
  hash : List Nat
  n : Nat
deriving DecidableEq

/-- `CTxOut`: amount and script of an output. -/
structure CTxOut where
  nValue : Int
  scriptPubKey : Script
deriving DecidableEq

/-- `Coin`: an unspent output plus metadata. -/
structure Coin where
  out : CTxOut
  fCoinBase : Bool
  fCoinStake : Bool
  nHeight : Nat
deriving DecidableEq

/-- One record yielded by a coin-database cursor.  `none` components model
a failing `GetKey` / `GetValue`. -/
structure CursorEntry where
  key : Option COutPoint
  value : Option Coin
deriving DecidableEq

/-- The decoded `(Outpoint, Coin)` pair of an entry, when both parts decode. -/
def decodeEntry (e : CursorEntry) : Option (COutPoint × Coin) :=
  match e.key, e.value with
  | some k, some c => some (k, c)
  | _, _ => none

/-- `CBlockIndex` data the subsystem reads from the chain tip. -/
structure CBlockIndex where
  blockhash : List Nat
  nHeight : Nat
  nChainTx : Nat
deriving DecidableEq

/-- The 16-bit value formed from the first two key bytes:
`0x100 * *key.hash.begin() + *(key.hash.begin() + 1)`. -/
def highOf (key : COutPoint) : Nat :=
  256 * key.hash.headD 0 + key.hash.tail.headD 0

/-- The progress estimate `(int)(high * 100.0 / 65536.0 + 0.5)`, computed
exactly (see the header comment) as integer arithmetic. -/
def progressOf (key : COutPoint) : Nat :=
  (highOf key * 100 + 32768) / 65536

/-- `std::map::emplace`: insert only when the key is not yet present. -/
def emplace (m : List (COutPoint × Coin)) (key : COutPoint) (coin : Coin) :
    List (COutPoint × Coin) :=
  if m.any (fun p => decide (p.1 = key)) then m else m ++ [(key, coin)]

/-- `if (needles.count(coin.out.scriptPubKey)) out_results.emplace(key, coin);` -/
def matchStep (needles : List Script) (m : List (COutPoint × Coin))
    (key : COutPoint) (coin : Coin) : List (COutPoint × Coin) :=
  if needles.contains coin.out.scriptPubKey then emplace m key coin else m

/-- Result of `FindScriptPubKey`: the returned flag, the final values of
the out-parameters `count` and `out_results`, the final value of the
shared `scan_progress`, and `trace`, the chronological sequence of values
the shared `scan_progress` atomic takes during the call (each one
observable by a concurrent `status` query). -/
structure ScanOutcome where
  success : Bool
  count : Nat
  scan_progress : Nat
  out_results : List (COutPoint × Coin)
  trace : List Nat
deriving DecidableEq

/-- The `while (cursor->Valid())` loop of `FindScriptPubKey`.  `tr` holds
the progress values written so far, most recent first; the outcome stores
it in chronological order. -/
def scanLoop (should_abort : Nat → Bool) (needles : List Script) :
    List CursorEntry → Nat → Nat → List (COutPoint × Coin) → List Nat → ScanOutcome
  | [], count, _scan_progress, out_results, tr =>
      { success := true, count := count, scan_progress := 100,
        out_results := out_results, trace := (100 :: tr).reverse }
  | e :: rest, count, scan_progress, out_results, tr =>
      match e.key, e.value with
      | some key, some coin =>
          if (count + 1) % 8192 = 0 ∧ should_abort (count + 1) = true then
            { success := false, count := count + 1, scan_progress := scan_progress,
              out_results := out_results, trace := tr.reverse }
          else if (count + 1) % 256 = 0 then
            scanLoop should_abort needles rest (count + 1) (progressOf key)
              (matchStep needles out_results key coin) (progressOf key :: tr)
          else
            scanLoop should_abort needles rest (count + 1) scan_progress
              (matchStep needles out_results key coin) tr
      | _, _ =>
          { success := false, count := count, scan_progress := scan_progress,
            out_results := out_results, trace := tr.reverse }

/-- `FindScriptPubKey`: scan a positioned cursor for scripts in the needle
set.  `scan_progress = 0; count = 0;` then the loop. -/
def FindScriptPubKey (should_abort : Nat → Bool) (needles : List Script)
    (entries : List CursorEntry) : ScanOutcome :=
  scanLoop should_abort needles entries 0 0 [] [0]

/-- The shared scan atomics: `g_scan_progress`, `g_scan_in_progress`,
`g_should_abort_scan`. -/
structure ScanState where
  scan_progress : Nat
  in_progress : Bool
  should_abort : Bool
deriving DecidableEq

/-- Process start: all three atomics zero-initialised. -/
def initScan : ScanState :=
  { scan_progress := 0, in_progress := false, should_abort := false }

/-- `CoinsViewScanReserver::reserve`: `g_scan_in_progress.exchange(true)`;
the exchange leaves an already-true flag unchanged, so a losing reserve
mutates nothing. -/
def reserveOp (g : ScanState) : Bool × ScanState :=
  if g.in_progress then (false, g)
  else (true, { g with in_progress := true })

/-- `CoinsViewScanReserver::~CoinsViewScanReserver` when the reservation
was obtained: clears `g_scan_in_progress` and resets `g_scan_progress`. -/
def releaseReserver (g : ScanState) : ScanState :=
  { g with in_progress := false, scan_progress := 0 }

/-- Reservation events for the process-wide admission-control state; each
event is one atomic step.  A `releaseEv` only has an effect while some
reservation is held (the destructor runs once per successful reserve). -/
inductive ScanEvent
  | reserveEv
  | releaseEv

/-- One atomic event against the shared state, tracking the number of
outstanding reservations. -/
def stepEv : ScanState × Nat → ScanEvent → ScanState × Nat
  | (g, holders), .reserveEv =>
      let r := reserveOp g
      (r.2, if r.1 then holders + 1 else holders)
  | (g, holders), .releaseEv =>
      if holders = 0 then (g, holders) else (releaseReserver g, holders - 1)

/-- Run a sequence of reservation events from process start. -/
def runEvents (evs : List ScanEvent) : ScanState × Nat :=
  evs.foldl stepEv (initScan, 0)

/-- The RPC error codes this surface can raise (`JSONRPCError`). -/
inductive RPCError
  | invalidParameter
  | miscError
  | invalidAddressOrKey
  | internalError
deriving DecidableEq

/-- The `start` action's result object. -/
structure StartResult where
  success : Bool
  txouts : Nat
  height : Nat
  bestblock : List Nat
  unspents : List (COutPoint × Coin)
  total_amount : Int
deriving DecidableEq

/-- Expansion of the `scanobjects` argument: each scan object either
expands (via `EvalDescriptorStringOrObject`) to a list of scripts or
throws; any failure aborts the whole request.  The needle set is the
union (membership below is by `List.contains`, matching
`std::set::count`). -/
def evalScanobjects : List (Option (List Script)) → Option (List Script)
  | [] => some []
  | o :: rest =>
      match o, evalScanobjects rest with
      | some s, some l => some (s ++ l)
      | _, _ => none

/-- `scantxoutset` with `action == "start"`.  `scanobjects = none` models
a missing second parameter; the tip and the cursor contents are the
externally obtained collaborator state.  Returns the RPC outcome and the
final shared scan state (the reserver's destructor has run on every
path). -/
def scantxoutsetStart (scanobjects : Option (List (Option (List Script))))
    (tip : CBlockIndex) (entries : List CursorEntry)
    (abortSig : Nat → Bool) (g : ScanState) :
    Except RPCError StartResult × ScanState :=
  if g.in_progress then (.error .invalidParameter, g)
  else
    let g1 := { g with in_progress := true }
    match scanobjects with
    | none => (.error .miscError, releaseReserver g1)
    | some objs =>
        match evalScanobjects objs with
        | none => (.error .invalidAddressOrKey, releaseReserver g1)
        | some needles =>
            let g2 := { g1 with should_abort := false }
            let outcome := FindScriptPubKey abortSig needles entries
            let g3 := { g2 with scan_progress := outcome.scan_progress }
            (.ok
              { success := outcome.success
                txouts := outcome.count
                height := tip.nHeight
                bestblock := tip.blockhash
                unspents := outcome.out_results
                total_amount :=
                  outcome.out_results.foldl (fun a p => a + p.2.out.nValue) 0 },
              releaseReserver g3)

/-- `scantxoutset` with `action == "status"`: a successful reserve means
no scan is running (returns `none`, destructor releases); otherwise the
current progress is reported. -/
def scantxoutsetStatus (g : ScanState) : Option Nat × ScanState :=
  if g.in_progress then (some g.scan_progress, g)
  else (none, releaseReserver g)

/-- `scantxoutset` with `action == "abort"`: a successful reserve means no
scan was running, so report `false` without touching the abort flag
(destructor releases); otherwise set the abort flag and report `true`. -/
def scantxoutsetAbort (g : ScanState) : Bool × ScanState :=
  if g.in_progress then (true, { g with should_abort := true })
  else (false, releaseReserver g)

/-- `SnapshotMetadata`: the header written once at the head of a
snapshot. -/
structure SnapshotMetadata where
  base_blockhash : List Nat
  coins_count : Nat
  nchaintx : Nat
deriving DecidableEq

/-- The contents of a snapshot file: the header, if already written, and
the body records written so far. -/
structure SnapContent where
  header : Option SnapshotMetadata
  body : List (COutPoint × Coin)
deriving DecidableEq

/-- The result object of `CreateUTXOSnapshot` / `dumptxoutset`. -/
structure SnapResult where
  coins_written : Nat
  base_hash : List Nat
  base_height : Nat
deriving DecidableEq

/-- The `while (pcursor->Valid())` loop of `CreateUTXOSnapshot`:
every 5000th iteration first calls the interruption point (modelled by
`shutdown`, which throws where `true`, leaving the records written so far
as the error payload); a record is written only when both its key and its
value decode. -/
def streamBody (shutdown : Nat → Bool) :
    List CursorEntry → Nat → List (COutPoint × Coin) →
    Except (List (COutPoint × Coin)) (List (COutPoint × Coin))
  | [], _, acc => .ok acc
  | e :: rest, iter, acc =>
      if iter % 5000 = 0 ∧ shutdown iter = true then .error acc
      else
        match e.key, e.value with
        | some key, some coin => streamBody shutdown rest (iter + 1) (acc ++ [(key, coin)])
        | _, _ => streamBody shutdown rest (iter + 1) acc

/-- Errors raised on the snapshot path. -/
inductive DumpError
  | invalidParameter
  | internalError
  | interrupted
deriving DecidableEq

/-- `CreateUTXOSnapshot`.  `statsOk` is whether `GetUTXOStats` succeeds
(it fails with `RPC_INTERNAL_ERROR` before anything is written);
`coins_count` is the count that call computes; `tip` is the block index
looked up for `stats.hashBlock`.  On an error the payload is the content
the file was left with. -/
def CreateUTXOSnapshot (statsOk : Bool) (coins_count : Nat) (tip : CBlockIndex)
    (shutdown : Nat → Bool) (entries : List CursorEntry) :
    Except (DumpError × SnapContent) (SnapContent × SnapResult) :=
  if statsOk = false then .error (.internalError, { header := none, body := [] })
  else
    let metadata : SnapshotMetadata :=
      { base_blockhash := tip.blockhash, coins_count := coins_count,
        nchaintx := tip.nChainTx }
    match streamBody shutdown entries 0 [] with
    | .error body => .error (.interrupted, { header := some metadata, body := body })
    | .ok body =>
        .ok ({ header := some metadata, body := body },
          { coins_written := coins_count, base_hash := tip.blockhash,
            base_height := tip.nHeight })

/-- The filesystem the export touches: existing paths and their contents. -/
abbrev FS := List (String × SnapContent)

/-- Content of the file at a path, if any. -/
def fsLookup (fsys : FS) (p : String) : Option SnapContent :=
  (fsys.find? (fun e => decide (e.1 = p))).map (fun e => e.2)

/-- `fs::exists`. -/
def fsExists (fsys : FS) (p : String) : Bool :=
  (fsLookup fsys p).isSome

/-- Create or overwrite the file at a path. -/
def fsSet (fsys : FS) (p : String) (c : SnapContent) : FS :=
  (p, c) :: fsys.filter (fun e => decide (e.1 ≠ p))

/-- `fs::rename`: atomically move `src` onto `dst`. -/
def fsRename (fsys : FS) (src dst : String) : FS :=
  match fsLookup fsys src with
  | none => fsys
  | some c => fsSet (fsys.filter (fun e => decide (e.1 ≠ src))) dst c

/-- The temporary output path: `path + ".incomplete"`. -/
def tempPathOf (p : String) : String := p ++ ".incomplete"

/-- `dumptxoutset`: reject an existing destination, open the temporary
file, run `CreateUTXOSnapshot`, and only on full success rename the
temporary path onto the final path.  An exception mid-stream leaves the
temporary file with whatever was written; the final path is untouched. -/
def dumptxoutset (fsys : FS) (path : String) (statsOk : Bool) (coins_count : Nat)
    (tip : CBlockIndex) (shutdown : Nat → Bool) (entries : List CursorEntry) :
    Except DumpError SnapResult × FS :=
  let temppath := tempPathOf path
  if fsExists fsys path then (.error .invalidParameter, fsys)
  else
    let fs1 := fsSet fsys temppath { header := none, body := [] }
    match CreateUTXOSnapshot statsOk coins_count tip shutdown entries with
    | .error (err, c) => (.error err, fsSet fs1 temppath c)
    | .ok (c, res) => (.ok res, fsRename (fsSet fs1 temppath c) temppath path)

/-- Byte-wise lexicographic comparison of serialized keys (the coin
database's iteration order). -/
def bytesLE : List Nat → List Nat → Bool
  | [], _ => true
  | _ :: _, [] => false
  | a :: as, b :: bs =>
      if a < b then true
      else if a = b then bytesLE as bs
      else false

/-- Wellformedness of a stored key: at least two hash bytes, every byte
below 256. -/
def wfKey (key : COutPoint) : Prop :=
  2 ≤ key.hash.length ∧ ∀ b ∈ key.hash, b < 256

instance (key : COutPoint) : Decidable (wfKey key) :=
  inferInstanceAs (Decidable (2 ≤ key.hash.length ∧ ∀ b ∈ key.hash, b < 256))

/-- Accumulation of scan matches over a list of decoded records. -/
def resultsAcc (needles : List Script) (acc : List (COutPoint × Coin))
    (pairs : List (COutPoint × Coin)) : List (COutPoint × Coin) :=
  pairs.foldl (fun m p => matchStep needles m p.1 p.2) acc

theorem emplace_not_mem (m : List (COutPoint × Coin)) (k : COutPoint) (c : Coin)
    (h : ∀ q ∈ m, q.1 ≠ k) : emplace m k c = m ++ [(k, c)] := by
  unfold emplace
  rw [if_neg]
  simp only [List.any_eq_true, decide_eq_true_eq, not_exists]
  intro q
  simp only [not_and]
  intro hq
  exact h q hq

theorem resultsAcc_filter (needles : List Script) :
    ∀ (pairs acc : List (COutPoint × Coin)),
      (pairs.map Prod.fst).Nodup →
      (∀ p ∈ pairs, ∀ q ∈ acc, q.1 ≠ p.1) →
      resultsAcc needles acc pairs =
        acc ++ pairs.filter (fun p => needles.contains p.2.out.scriptPubKey) := by
  intro pairs
  induction pairs with
  | nil => intro acc _ _; simp [resultsAcc]
  | cons p rest ih =>
      intro acc hnodup hdisj
      rw [List.map_cons, List.nodup_cons] at hnodup
      have hstep : resultsAcc needles acc (p :: rest) =
          resultsAcc needles (matchStep needles acc p.1 p.2) rest := rfl
      rw [hstep]
      by_cases hc : needles.contains p.2.out.scriptPubKey
      · have hm : matchStep needles acc p.1 p.2 = acc ++ [(p.1, p.2)] := by
          unfold matchStep
          rw [if_pos hc, emplace_not_mem]
          intro q hq
          exact hdisj p (by simp) q hq
        rw [hm, ih (acc ++ [(p.1, p.2)]) hnodup.2]
        · have hmem : p.2.out.scriptPubKey ∈ needles := by simpa using hc
          simp [List.filter_cons, hmem]
        · intro r hr q hq
          rcases List.mem_append.mp hq with hq | hq
          · exact hdisj r (by simp [hr]) q hq
          · simp only [List.mem_singleton] at hq
            subst hq
            intro heq
            exact hnodup.1 (heq ▸ List.mem_map_of_mem Prod.fst hr)
      · have hm : matchStep needles acc p.1 p.2 = acc := by
          unfold matchStep
          rw [if_neg hc]
        rw [hm, ih acc hnodup.2]
        · have hmem : p.2.out.scriptPubKey ∉ needles := by simpa using hc
          simp [List.filter_cons, hmem]
        · intro r hr q hq
          exact hdisj r (by simp [hr]) q hq

theorem decodeEntry_isSome {e : CursorEntry} (h : (decodeEntry e).isSome) :
    ∃ k c, e.key = some k ∧ e.value = some c := by
  cases hk : e.key with
  | none => simp [decodeEntry, hk] at h
  | some k =>
      cases hc : e.value with
      | none => simp [decodeEntry, hk, hc] at h
      | some c => exact ⟨k, c, rfl, rfl⟩

theorem scanLoop_no_abort (should_abort : Nat → Bool) (needles : List Script)
    (habort : ∀ n, should_abort n = false) :
    ∀ (entries : List CursorEntry) (count scan_progress : Nat)
      (acc : List (COutPoint × Coin)) (tr : List Nat),
      (∀ e ∈ entries, (decodeEntry e).isSome) →
      (scanLoop should_abort needles entries count scan_progress acc tr).success = true ∧
      (scanLoop should_abort needles entries count scan_progress acc tr).count
        = count + entries.length ∧
      (scanLoop should_abort needles entries count scan_progress acc tr).out_results
        = resultsAcc needles acc (entries.filterMap decodeEntry) ∧
      (scanLoop should_abort needles entries count scan_progress acc tr).scan_progress = 100 ∧
      (scanLoop should_abort needles entries count scan_progress acc tr).trace.getLast?
        = some 100 := by
  intro entries
  induction entries with
  | nil =>
      intro count p acc tr _
      refine ⟨rfl, by simp [scanLoop], by simp [scanLoop, resultsAcc], rfl, ?_⟩
      show ((100 :: tr).reverse).getLast? = some 100
      rw [List.reverse_cons, List.getLast?_concat]
  | cons e rest ih =>
      intro count p acc tr hdec
      obtain ⟨k, c, hk, hc⟩ := decodeEntry_isSome (hdec e (by simp))
      have hdec' : ∀ e ∈ rest, (decodeEntry e).isSome := fun e he => hdec e (by simp [he])
      have hfm : (e :: rest).filterMap decodeEntry
          = (k, c) :: rest.filterMap decodeEntry := by
        simp [List.filterMap_cons, decodeEntry, hk, hc]
      have hres : resultsAcc needles acc ((k, c) :: rest.filterMap decodeEntry)
          = resultsAcc needles (matchStep needles acc k c) (rest.filterMap decodeEntry) := rfl
      have hcond : ¬ ((count + 1) % 8192 = 0 ∧ should_abort (count + 1) = true) := by
        simp [habort]
      by_cases h256 : (count + 1) % 256 = 0
      · have hunf : scanLoop should_abort needles (e :: rest) count p acc tr
            = scanLoop should_abort needles rest (count + 1) (progressOf k)
                (matchStep needles acc k c) (progressOf k :: tr) := by
          simp only [scanLoop, hk, hc]
          rw [if_neg hcond, if_pos h256]
        rw [hunf, hfm, hres]
        have := ih (count + 1) (progressOf k) (matchStep needles acc k c)
          (progressOf k :: tr) hdec'
        refine ⟨this.1, ?_, this.2.2.1, this.2.2.2.1, this.2.2.2.2⟩
        rw [this.2.1]; simp; omega
      · have hunf : scanLoop should_abort needles (e :: rest) count p acc tr
            = scanLoop should_abort needles rest (count + 1) p
                (matchStep needles acc k c) tr := by
          simp only [scanLoop, hk, hc]
          rw [if_neg hcond, if_neg h256]
        rw [hunf, hfm, hres]
        have := ih (count + 1) p (matchStep needles acc k c) tr hdec'
        refine ⟨this.1, ?_, this.2.2.1, this.2.2.2.1, this.2.2.2.2⟩
        rw [this.2.1]; simp; omega

theorem scantxoutsetStart_busy (so : Option (List (Option (List Script))))
    (tip : CBlockIndex) (entries : List CursorEntry) (abortSig : Nat → Bool)
    (g : ScanState) (hg : g.in_progress = true) :
    scantxoutsetStart so tip entries abortSig g = (.error .invalidParameter, g) := by
  simp [scantxoutsetStart, hg]

theorem scantxoutsetStart_run (objs : List (Option (List Script))) (needles : List Script)
    (tip : CBlockIndex) (entries : List CursorEntry) (abortSig : Nat → Bool)
    (g : ScanState) (hg : g.in_progress = false)
    (hobjs : evalScanobjects objs = some needles) :
    scantxoutsetStart (some objs) tip entries abortSig g =
      (.ok { success := (FindScriptPubKey abortSig needles entries).success
             txouts := (FindScriptPubKey abortSig needles entries).count
             height := tip.nHeight
             bestblock := tip.blockhash
             unspents := (FindScriptPubKey abortSig needles entries).out_results
             total_amount := (FindScriptPubKey abortSig needles entries).out_results.foldl
               (fun a p => a + p.2.out.nValue) 0 },
       { scan_progress := 0, in_progress := false, should_abort := false }) := by
  simp only [scantxoutsetStart, hg, Bool.false_eq_true, if_false, hobjs, releaseReserver]

theorem resultsAcc_nil_needles : ∀ (pairs acc : List (COutPoint × Coin)),
    resultsAcc [] acc pairs = acc := by
  intro pairs
  induction pairs with
  | nil => intro acc; rfl
  | cons p rest ih =>
      intro acc
      have : resultsAcc [] acc (p :: rest) = resultsAcc [] (matchStep [] acc p.1 p.2) rest := rfl
      rw [this]
      have hm : matchStep [] acc p.1 p.2 = acc := by simp [matchStep]
      rw [hm, ih]

/-- C1: a scan run to natural exhaustion (all records decode, no abort)
succeeds, visits every record, and returns exactly the records whose
script is in the needle set; with an empty needle set, `start` returns
`success = true`, `txouts = N`, no matches and `total_amount = 0`. -/
theorem scan_finds_exactly_matches
    (should_abort : Nat → Bool) (needles : List Script) (entries : List CursorEntry)
    (hdec : ∀ e ∈ entries, (decodeEntry e).isSome)
    (habort : ∀ n, should_abort n = false)
    (hnodup : ((entries.filterMap decodeEntry).map Prod.fst).Nodup) :
    (FindScriptPubKey should_abort needles entries).success = true ∧
    (FindScriptPubKey should_abort needles entries).count = entries.length ∧
    (FindScriptPubKey should_abort needles entries).out_results
      = (entries.filterMap decodeEntry).filter
          (fun p => needles.contains p.2.out.scriptPubKey) ∧
    (∀ (tip : CBlockIndex) (g : ScanState), g.in_progress = false →
      scantxoutsetStart (some []) tip entries should_abort g =
        (.ok { success := true, txouts := entries.length, height := tip.nHeight,
               bestblock := tip.blockhash, unspents := [], total_amount := 0 },
         initScan)) := by
  have main := scanLoop_no_abort should_abort needles habort entries 0 0 [] [0] hdec
  refine ⟨main.1, by rw [FindScriptPubKey, main.2.1]; omega, ?_, ?_⟩
  · rw [FindScriptPubKey, main.2.2.1,
      resultsAcc_filter needles (entries.filterMap decodeEntry) [] hnodup (by simp)]
    simp
  · intro tip g hg
    have m0 := scanLoop_no_abort should_abort [] habort entries 0 0 [] [0] hdec
    rw [scantxoutsetStart_run [] [] tip entries should_abort g hg rfl]
    rw [show FindScriptPubKey should_abort [] entries = scanLoop should_abort [] entries 0 0 [] [0] from rfl]
    rw [m0.1, m0.2.1, m0.2.2.1, resultsAcc_nil_needles]
    simp [initScan]

/-- Witness for C1: a two-record store with one matching script. -/
theorem scan_finds_exactly_matches_w :
    (FindScriptPubKey (fun _ => false) [[7]]
      [⟨some ⟨[1, 2], 0⟩, some ⟨⟨5, [7]⟩, false, false, 3⟩⟩,
       ⟨some ⟨[3, 4], 1⟩, some ⟨⟨9, [8]⟩, false, false, 4⟩⟩]).success = true ∧
    (FindScriptPubKey (fun _ => false) [[7]]
      [⟨some ⟨[1, 2], 0⟩, some ⟨⟨5, [7]⟩, false, false, 3⟩⟩,
       ⟨some ⟨[3, 4], 1⟩, some ⟨⟨9, [8]⟩, false, false, 4⟩⟩]).count = 2 ∧
    (FindScriptPubKey (fun _ => false) [[7]]
      [⟨some ⟨[1, 2], 0⟩, some ⟨⟨5, [7]⟩, false, false, 3⟩⟩,
       ⟨some ⟨[3, 4], 1⟩, some ⟨⟨9, [8]⟩, false, false, 4⟩⟩]).out_results
      = [(⟨[1, 2], 0⟩, ⟨⟨5, [7]⟩, false, false, 3⟩)] ∧
    scantxoutsetStart (some []) ⟨[9], 7, 3⟩
      [⟨some ⟨[1, 2], 0⟩, some ⟨⟨5, [7]⟩, false, false, 3⟩⟩,
       ⟨some ⟨[3, 4], 1⟩, some ⟨⟨9, [8]⟩, false, false, 4⟩⟩] (fun _ => false) initScan
      = (.ok { success := true, txouts := 2, height := 7, bestblock := [9],
               unspents := [], total_amount := 0 }, initScan) := by
  have h := scan_finds_exactly_matches (fun _ => false) [[7]]
    [⟨some ⟨[1, 2], 0⟩, some ⟨⟨5, [7]⟩, false, false, 3⟩⟩,
     ⟨some ⟨[3, 4], 1⟩, some ⟨⟨9, [8]⟩, false, false, 4⟩⟩]
    (by decide) (fun _ => rfl) (by decide)
  exact ⟨h.1, h.2.1, by rw [h.2.2.1]; decide, h.2.2.2 ⟨[9], 7, 3⟩ initScan rfl⟩

theorem scantxoutsetStart_noobjs (tip : CBlockIndex) (entries : List CursorEntry)
    (abortSig : Nat → Bool) (g : ScanState) (hg : g.in_progress = false) :
    scantxoutsetStart none tip entries abortSig g =
      (.error .miscError, releaseReserver { g with in_progress := true }) := by
  simp [scantxoutsetStart, hg]

theorem scantxoutsetStart_badobjs (objs : List (Option (List Script)))
    (tip : CBlockIndex) (entries : List CursorEntry) (abortSig : Nat → Bool)
    (g : ScanState) (hg : g.in_progress = false)
    (hobjs : evalScanobjects objs = none) :
    scantxoutsetStart (some objs) tip entries abortSig g =
      (.error .invalidAddressOrKey, releaseReserver { g with in_progress := true }) := by
  simp [scantxoutsetStart, hg, hobjs]

theorem runEvents_inv : ∀ (evs : List ScanEvent) (g : ScanState) (h : Nat),
    h ≤ 1 → (g.in_progress = true ↔ h = 1) →
    (evs.foldl stepEv (g, h)).2 ≤ 1 ∧
    ((evs.foldl stepEv (g, h)).1.in_progress = true ↔ (evs.foldl stepEv (g, h)).2 = 1) := by
  intro evs
  induction evs with
  | nil => intro g h h1 h2; exact ⟨h1, h2⟩
  | cons e rest ih =>
      intro g h h1 h2
      rw [List.foldl_cons]
      cases e with
      | reserveEv =>
          by_cases hp : g.in_progress = true
          · have hs : stepEv (g, h) .reserveEv = (g, h) := by
              simp [stepEv, reserveOp, hp]
            rw [hs]; exact ih g h h1 h2
          · have hg : g.in_progress = false := by
              cases hb : g.in_progress
              · rfl
              · exact absurd hb hp
            have h0 : h = 0 := by
              rcases Nat.le_one_iff_eq_zero_or_eq_one.mp h1 with h0 | h1'
              · exact h0
              · exact absurd (h2.mpr h1') hp
            have hs : stepEv (g, h) .reserveEv = ({ g with in_progress := true }, h + 1) := by
              simp [stepEv, reserveOp, hg]
            rw [hs]
            apply ih
            · omega
            · subst h0
              constructor
              · intro _; rfl
              · intro _; rfl
      | releaseEv =>
          by_cases hh : h = 0
          · have hs : stepEv (g, h) .releaseEv = (g, h) := by
              simp [stepEv, hh]
            rw [hs]; exact ih g h h1 h2
          · have h1' : h = 1 := by omega
            have hs : stepEv (g, h) .releaseEv = (releaseReserver g, h - 1) := by
              simp [stepEv, hh]
            rw [hs]
            apply ih
            · omega
            · subst h1'
              constructor
              · intro hfalse
                simp [releaseReserver] at hfalse
              · intro h10; omega

/-- C4: at most one reservation is ever outstanding; a reserve succeeds
only via an idle-to-active transition; a losing reserve (and hence a
losing `start`) mutates nothing; and on every exit path of `start` the
reservation is released with `scan_progress` reset to 0. -/
theorem scan_reservation_exclusive :
    (∀ evs : List ScanEvent, (runEvents evs).2 ≤ 1) ∧
    (∀ g : ScanState, (reserveOp g).1 = true →
        g.in_progress = false ∧ (reserveOp g).2.in_progress = true) ∧
    (∀ g : ScanState, g.in_progress = true → reserveOp g = (false, g)) ∧
    (∀ (so : Option (List (Option (List Script)))) (tip : CBlockIndex)
        (entries : List CursorEntry) (abortSig : Nat → Bool) (g : ScanState),
        g.in_progress = true →
        scantxoutsetStart so tip entries abortSig g = (.error .invalidParameter, g)) ∧
    (∀ (so : Option (List (Option (List Script)))) (tip : CBlockIndex)
        (entries : List CursorEntry) (abortSig : Nat → Bool) (g : ScanState),
        g.in_progress = false →
        (scantxoutsetStart so tip entries abortSig g).2.in_progress = false ∧
        (scantxoutsetStart so tip entries abortSig g).2.scan_progress = 0) := by
  refine ⟨?_, ?_, ?_, ?_, ?_⟩
  · intro evs
    exact (runEvents_inv evs initScan 0 (by omega) (by simp [initScan])).1
  · intro g hr
    cases hb : g.in_progress
    · exact ⟨rfl, by simp [reserveOp, hb]⟩
    · simp [reserveOp, hb] at hr
  · intro g hg
    simp [reserveOp, hg]
  · intro so tip entries abortSig g hg
    exact scantxoutsetStart_busy so tip entries abortSig g hg
  · intro so tip entries abortSig g hg
    cases so with
    | none =>
        rw [scantxoutsetStart_noobjs tip entries abortSig g hg]
        exact ⟨rfl, rfl⟩
    | some objs =>
        cases hobjs : evalScanobjects objs with
        | none =>
            rw [scantxoutsetStart_badobjs objs tip entries abortSig g hg hobjs]
            exact ⟨rfl, rfl⟩
        | some needles =>
            rw [scantxoutsetStart_run objs needles tip entries abortSig g hg hobjs]
            exact ⟨rfl, rfl⟩

/-- Witness for C4: a `start` on the idle state ends released; a `start`
against a busy state fails without mutating it. -/
theorem scan_reservation_exclusive_w :
    ((scantxoutsetStart none ⟨[9], 7, 3⟩ [] (fun _ => false) initScan).2.in_progress = false ∧
     (scantxoutsetStart none ⟨[9], 7, 3⟩ [] (fun _ => false) initScan).2.scan_progress = 0) ∧
    scantxoutsetStart none ⟨[9], 7, 3⟩ [] (fun _ => false) ⟨17, true, false⟩
      = (.error .invalidParameter, ⟨17, true, false⟩) :=
  ⟨scan_reservation_exclusive.2.2.2.2 none ⟨[9], 7, 3⟩ [] (fun _ => false) initScan rfl,
   scan_reservation_exclusive.2.2.2.1 none ⟨[9], 7, 3⟩ [] (fun _ => false) ⟨17, true, false⟩ rfl⟩

/-- C9: `abort` while idle reports `false` and leaves the shared state
untouched (in particular the abort flag is not set), and a `start`'s
outcome is independent of the prior value of the abort flag (it is
cleared before the scan runs). -/
theorem abort_idle_no_effect :
    (∀ g : ScanState, g.in_progress = false → g.scan_progress = 0 →
        scantxoutsetAbort g = (false, g)) ∧
    (∀ (so : Option (List (Option (List Script)))) (tip : CBlockIndex)
        (entries : List CursorEntry) (abortSig : Nat → Bool) (g : ScanState)
        (b1 b2 : Bool),
        (scantxoutsetStart so tip entries abortSig { g with should_abort := b1 }).1 =
        (scantxoutsetStart so tip entries abortSig { g with should_abort := b2 }).1) := by
  constructor
  · intro g hg hp
    cases g
    simp_all [scantxoutsetAbort, releaseReserver]
  · intro so tip entries abortSig g b1 b2
    cases hb : g.in_progress
    · cases so with
      | none =>
          rw [scantxoutsetStart_noobjs tip entries abortSig _ (by simp [hb]),
            scantxoutsetStart_noobjs tip entries abortSig _ (by simp [hb])]
      | some objs =>
          cases hobjs : evalScanobjects objs with
          | none =>
              rw [scantxoutsetStart_badobjs objs tip entries abortSig _ (by simp [hb]) hobjs,
                scantxoutsetStart_badobjs objs tip entries abortSig _ (by simp [hb]) hobjs]
          | some needles =>
              rw [scantxoutsetStart_run objs needles tip entries abortSig _ (by simp [hb]) hobjs,
                scantxoutsetStart_run objs needles tip entries abortSig _ (by simp [hb]) hobjs]
    · rw [scantxoutsetStart_busy so tip entries abortSig _ (by simp [hb]),
        scantxoutsetStart_busy so tip entries abortSig _ (by simp [hb])]

/-- Witness for C9: idle abort at process start, then a start with and
without a stale abort flag. -/
theorem abort_idle_no_effect_w :
    scantxoutsetAbort initScan = (false, initScan) ∧
    (scantxoutsetStart (some []) ⟨[9], 7, 3⟩ [] (fun _ => false)
        { initScan with should_abort := true }).1 =
    (scantxoutsetStart (some []) ⟨[9], 7, 3⟩ [] (fun _ => false)
        { initScan with should_abort := false }).1 :=
  ⟨abort_idle_no_effect.1 initScan rfl rfl,
   abort_idle_no_effect.2 (some []) ⟨[9], 7, 3⟩ [] (fun _ => false) initScan true false⟩

theorem scanLoop_cons_bad (should_abort : Nat → Bool) (needles : List Script)
    (e : CursorEntry) (rest : List CursorEntry) (count p : Nat)
    (acc : List (COutPoint × Coin)) (tr : List Nat)
    (hbad : decodeEntry e = none) :
    scanLoop should_abort needles (e :: rest) count p acc tr =
      { success := false, count := count, scan_progress := p,
        out_results := acc, trace := tr.reverse } := by
  cases hk : e.key <;> cases hv : e.value <;> simp_all [scanLoop, decodeEntry]

theorem scanLoop_cons_ok (should_abort : Nat → Bool) (needles : List Script)
    (e : CursorEntry) (rest : List CursorEntry) (count p : Nat)
    (acc : List (COutPoint × Coin)) (tr : List Nat) (k : COutPoint) (c : Coin)
    (hk : e.key = some k) (hc : e.value = some c) :
    scanLoop should_abort needles (e :: rest) count p acc tr =
      if (count + 1) % 8192 = 0 ∧ should_abort (count + 1) = true then
        { success := false, count := count + 1, scan_progress := p,
          out_results := acc, trace := tr.reverse }
      else if (count + 1) % 256 = 0 then
        scanLoop should_abort needles rest (count + 1) (progressOf k)
          (matchStep needles acc k c) (progressOf k :: tr)
      else
        scanLoop should_abort needles rest (count + 1) p
          (matchStep needles acc k c) tr := by
  simp [scanLoop, hk, hc]

theorem scanLoop_success_count (should_abort : Nat → Bool) (needles : List Script) :
    ∀ (entries : List CursorEntry) (count p : Nat)
      (acc : List (COutPoint × Coin)) (tr : List Nat),
      (scanLoop should_abort needles entries count p acc tr).success = true →
      (scanLoop should_abort needles entries count p acc tr).count
        = count + entries.length := by
  intro entries
  induction entries with
  | nil => intro count p acc tr _; simp [scanLoop]
  | cons e rest ih =>
      intro count p acc tr hs
      by_cases hbad : decodeEntry e = none
      · rw [scanLoop_cons_bad _ _ _ _ _ _ _ _ hbad] at hs
        simp at hs
      · obtain ⟨k, c, hk, hv⟩ := decodeEntry_isSome (Option.isSome_iff_ne_none.mpr hbad)
        rw [scanLoop_cons_ok _ _ _ _ _ _ _ _ k c hk hv] at hs ⊢
        by_cases h8 : (count + 1) % 8192 = 0 ∧ should_abort (count + 1) = true
        · rw [if_pos h8] at hs; simp at hs
        · rw [if_neg h8] at hs ⊢
          by_cases h256 : (count + 1) % 256 = 0
          · rw [if_pos h256] at hs ⊢
            rw [ih _ _ _ _ hs]; simp; omega
          · rw [if_neg h256] at hs ⊢
            rw [ih _ _ _ _ hs]; simp; omega

theorem scanLoop_abort_bound (should_abort : Nat → Bool) (needles : List Script)
    (t : Nat) (habort : ∀ n, t ≤ n → should_abort n = true) :
    ∀ (entries : List CursorEntry) (count p : Nat)
      (acc : List (COutPoint × Coin)) (tr : List Nat),
      count < 8192 * (t / 8192 + 1) →
      (scanLoop should_abort needles entries count p acc tr).count
        ≤ 8192 * (t / 8192 + 1) := by
  intro entries
  induction entries with
  | nil => intro count p acc tr hc; simp [scanLoop]; omega
  | cons e rest ih =>
      intro count p acc tr hc
      by_cases hbad : decodeEntry e = none
      · rw [scanLoop_cons_bad _ _ _ _ _ _ _ _ hbad]
        simpa using Nat.le_of_lt hc
      · obtain ⟨k, c, hk, hv⟩ := decodeEntry_isSome (Option.isSome_iff_ne_none.mpr hbad)
        rw [scanLoop_cons_ok _ _ _ _ _ _ _ _ k c hk hv]
        by_cases hB : count + 1 = 8192 * (t / 8192 + 1)
        · rw [if_pos]
          · simp; omega
          · exact ⟨by omega, habort _ (by omega)⟩
        · by_cases h8 : (count + 1) % 8192 = 0 ∧ should_abort (count + 1) = true
          · rw [if_pos h8]; simp; omega
          · rw [if_neg h8]
            by_cases h256 : (count + 1) % 256 = 0
            · rw [if_pos h256]; exact ih _ _ _ _ (by omega)
            · rw [if_neg h256]; exact ih _ _ _ _ (by omega)

/-- C6 (amended): the stop signal is sampled at every 8192nd record; once
the abort flag holds from record count `t` on, at most `t + 8192` records
are ever counted, and a store longer than that bound makes the scan
return `completion = false`.  (A store exhausted before the next
checkpoint still completes with `completion = true`.) -/
theorem abort_latency_bounded (should_abort : Nat → Bool) (needles : List Script)
    (entries : List CursorEntry) (t : Nat)
    (habort : ∀ n, t ≤ n → should_abort n = true) :
    (FindScriptPubKey should_abort needles entries).count ≤ t + 8192 ∧
    (t + 8192 < entries.length →
      (FindScriptPubKey should_abort needles entries).success = false) := by
  have hB : 8192 * (t / 8192 + 1) ≤ t + 8192 := by omega
  have h1 := scanLoop_abort_bound should_abort needles t habort entries 0 0 [] [0]
    (by omega)
  constructor
  · exact le_trans h1 hB
  · intro hlen
    cases hs : (FindScriptPubKey should_abort needles entries).success
    · rfl
    · exfalso
      have h2 := scanLoop_success_count should_abort needles entries 0 0 [] [0] hs
      omega

/-- Witness for C6 at a one-record store with the abort flag set from the
start. -/
theorem abort_latency_bounded_w :
    (FindScriptPubKey (fun _ => true) []
      [⟨some ⟨[1, 2], 0⟩, some ⟨⟨5, [7]⟩, false, false, 3⟩⟩]).count ≤ 0 + 8192 ∧
    (0 + 8192 < [(⟨some ⟨[1, 2], 0⟩, some ⟨⟨5, [7]⟩, false, false, 3⟩⟩ : CursorEntry)].length →
      (FindScriptPubKey (fun _ => true) []
        [⟨some ⟨[1, 2], 0⟩, some ⟨⟨5, [7]⟩, false, false, 3⟩⟩]).success = false) :=
  abort_latency_bounded (fun _ => true) []
    [⟨some ⟨[1, 2], 0⟩, some ⟨⟨5, [7]⟩, false, false, 3⟩⟩] 0 (fun _ _ => rfl)

/-- C6 counterexample: with the abort flag set from the very start, a
3-record store is exhausted before the first 8192-record checkpoint, so
the scan returns `completion = true`, not `completion = false`. -/
theorem abort_small_store_completes_cex :
    (FindScriptPubKey (fun _ => true) []
      [⟨some ⟨[1, 2], 0⟩, some ⟨⟨5, [7]⟩, false, false, 3⟩⟩,
       ⟨some ⟨[3, 4], 1⟩, some ⟨⟨9, [8]⟩, false, false, 4⟩⟩,
       ⟨some ⟨[5, 6], 2⟩, some ⟨⟨2, [7]⟩, false, false, 5⟩⟩]).success = true ∧
    (FindScriptPubKey (fun _ => true) []
      [⟨some ⟨[1, 2], 0⟩, some ⟨⟨5, [7]⟩, false, false, 3⟩⟩,
       ⟨some ⟨[3, 4], 1⟩, some ⟨⟨9, [8]⟩, false, false, 4⟩⟩,
       ⟨some ⟨[5, 6], 2⟩, some ⟨⟨2, [7]⟩, false, false, 5⟩⟩]).count = 3 := by
  decide

theorem scanLoop_corrupt (should_abort : Nat → Bool) (needles : List Script)
    (habort : ∀ n, should_abort n = false) (bad : CursorEntry)
    (hbad : decodeEntry bad = none) (rest : List CursorEntry) :
    ∀ (good : List CursorEntry) (count p : Nat)
      (acc : List (COutPoint × Coin)) (tr : List Nat),
      (∀ e ∈ good, (decodeEntry e).isSome) →
      (scanLoop should_abort needles (good ++ bad :: rest) count p acc tr).success = false ∧
      (scanLoop should_abort needles (good ++ bad :: rest) count p acc tr).count
        = count + good.length ∧
      (scanLoop should_abort needles (good ++ bad :: rest) count p acc tr).out_results
        = resultsAcc needles acc (good.filterMap decodeEntry) := by
  intro good
  induction good with
  | nil =>
      intro count p acc tr _
      rw [List.nil_append, scanLoop_cons_bad _ _ _ _ _ _ _ _ hbad]
      exact ⟨rfl, by simp, by simp [resultsAcc]⟩
  | cons e g ih =>
      intro count p acc tr hdec
      obtain ⟨k, c, hk, hv⟩ := decodeEntry_isSome (hdec e (by simp))
      rw [List.cons_append, scanLoop_cons_ok _ _ _ _ _ _ _ _ k c hk hv]
      rw [if_neg (by simp [habort])]
      have hdec' : ∀ x ∈ g, (decodeEntry x).isSome := fun x hx => hdec x (by simp [hx])
      have hfm : (e :: g).filterMap decodeEntry = (k, c) :: g.filterMap decodeEntry := by
        simp [List.filterMap_cons, decodeEntry, hk, hv]
      rw [hfm]
      by_cases h256 : (count + 1) % 256 = 0
      · rw [if_pos h256]
        have h := ih (count + 1) (progressOf k) (matchStep needles acc k c)
          (progressOf k :: tr) hdec'
        exact ⟨h.1, by rw [h.2.1]; simp; omega, h.2.2⟩
      · rw [if_neg h256]
        have h := ih (count + 1) p (matchStep needles acc k c) tr hdec'
        exact ⟨h.1, by rw [h.2.1]; simp; omega, h.2.2⟩

/-- C7 (amended): a record whose key or value fails to decode aborts the
scan on the spot — the corrupt record and everything after it are neither
counted nor matched, so the failure is not silently skipped — but the
caller receives an ordinary result object with `success = false`
(indistinguishable from an abort), not an RPC internal error. -/
theorem corrupt_record_aborts_scan (should_abort : Nat → Bool)
    (objs : List (Option (List Script))) (needles : List Script)
    (good : List CursorEntry) (bad : CursorEntry) (rest : List CursorEntry)
    (tip : CBlockIndex) (g : ScanState)
    (habort : ∀ n, should_abort n = false)
    (hobjs : evalScanobjects objs = some needles)
    (hgood : ∀ e ∈ good, (decodeEntry e).isSome)
    (hbad : decodeEntry bad = none)
    (hg : g.in_progress = false) :
    scantxoutsetStart (some objs) tip (good ++ bad :: rest) should_abort g =
      (.ok { success := false, txouts := good.length, height := tip.nHeight,
             bestblock := tip.blockhash,
             unspents := resultsAcc needles [] (good.filterMap decodeEntry),
             total_amount := (resultsAcc needles [] (good.filterMap decodeEntry)).foldl
               (fun a p => a + p.2.out.nValue) 0 },
       initScan) := by
  rw [scantxoutsetStart_run objs needles tip _ should_abort g hg hobjs]
  have h := scanLoop_corrupt should_abort needles habort bad hbad rest good 0 0 [] [0] hgood
  rw [show FindScriptPubKey should_abort needles (good ++ bad :: rest)
      = scanLoop should_abort needles (good ++ bad :: rest) 0 0 [] [0] from rfl]
  rw [h.1, h.2.1, h.2.2]
  simp [initScan]

/-- Witness for C7's amended theorem: one good record, then a corrupt one. -/
theorem corrupt_record_aborts_scan_w :
    scantxoutsetStart (some []) ⟨[9], 7, 3⟩
      [⟨some ⟨[1, 2], 0⟩, some ⟨⟨5, [7]⟩, false, false, 3⟩⟩, ⟨none, none⟩]
      (fun _ => false) initScan =
      (.ok { success := false, txouts := 1, height := 7, bestblock := [9],
             unspents := [], total_amount := 0 }, initScan) :=
  corrupt_record_aborts_scan (fun _ => false) [] []
    [⟨some ⟨[1, 2], 0⟩, some ⟨⟨5, [7]⟩, false, false, 3⟩⟩] ⟨none, none⟩ []
    ⟨[9], 7, 3⟩ initScan (fun _ => rfl) rfl (by decide) rfl rfl

/-- C7 counterexample: on a store whose only record fails to decode,
`start` returns an ordinary result object with `success = false`; no RPC
internal error reaches the caller. -/
theorem corrupt_record_reports_ok_cex :
    scantxoutsetStart (some []) ⟨[9], 7, 3⟩ [⟨none, none⟩] (fun _ => false) initScan =
      (.ok { success := false, txouts := 0, height := 7, bestblock := [9],
             unspents := [], total_amount := 0 }, initScan) ∧
    (scantxoutsetStart (some []) ⟨[9], 7, 3⟩ [⟨none, none⟩] (fun _ => false) initScan).1
      ≠ .error RPCError.internalError := by
  have h : scantxoutsetStart (some []) ⟨[9], 7, 3⟩ [⟨none, none⟩] (fun _ => false) initScan =
      (.ok { success := false, txouts := 0, height := 7, bestblock := [9],
             unspents := [], total_amount := 0 }, initScan) := rfl
  exact ⟨h, by rw [h]; simp⟩

theorem streamBody_cons_bad (shutdown : Nat → Bool) (e : CursorEntry)
    (rest : List CursorEntry) (iter : Nat) (acc : List (COutPoint × Coin))
    (hcond : ¬ (iter % 5000 = 0 ∧ shutdown iter = true))
    (hbad : decodeEntry e = none) :
    streamBody shutdown (e :: rest) iter acc = streamBody shutdown rest (iter + 1) acc := by
  cases hk : e.key <;> cases hv : e.value <;> simp_all [streamBody, decodeEntry]

theorem streamBody_cons_ok (shutdown : Nat → Bool) (e : CursorEntry)
    (rest : List CursorEntry) (iter : Nat) (acc : List (COutPoint × Coin))
    (k : COutPoint) (c : Coin)
    (hcond : ¬ (iter % 5000 = 0 ∧ shutdown iter = true))
    (hk : e.key = some k) (hv : e.value = some c) :
    streamBody shutdown (e :: rest) iter acc
      = streamBody shutdown rest (iter + 1) (acc ++ [(k, c)]) := by
  simp [streamBody, hcond, hk, hv]

theorem streamBody_ok (shutdown : Nat → Bool) :
    ∀ (entries : List CursorEntry) (iter : Nat) (acc body : List (COutPoint × Coin)),
      streamBody shutdown entries iter acc = .ok body →
      body = acc ++ entries.filterMap decodeEntry := by
  intro entries
  induction entries with
  | nil =>
      intro iter acc body h
      simp [streamBody] at h
      simp [h.symm]
  | cons e rest ih =>
      intro iter acc body h
      by_cases hcond : iter % 5000 = 0 ∧ shutdown iter = true
      · rw [show streamBody shutdown (e :: rest) iter acc = .error acc by
          simp [streamBody, hcond]] at h
        simp at h
      · by_cases hbad : decodeEntry e = none
        · rw [streamBody_cons_bad shutdown e rest iter acc hcond hbad] at h
          rw [ih _ _ _ h]
          simp [List.filterMap_cons, hbad]
        · obtain ⟨k, c, hk, hv⟩ := decodeEntry_isSome (Option.isSome_iff_ne_none.mpr hbad)
          rw [streamBody_cons_ok shutdown e rest iter acc k c hcond hk hv] at h
          rw [ih _ _ _ h]
          simp [List.filterMap_cons, decodeEntry, hk, hv]

theorem streamBody_no_shutdown (shutdown : Nat → Bool) (hsd : ∀ n, shutdown n = false) :
    ∀ (entries : List CursorEntry) (iter : Nat) (acc : List (COutPoint × Coin)),
      streamBody shutdown entries iter acc = .ok (acc ++ entries.filterMap decodeEntry) := by
  intro entries
  induction entries with
  | nil => intro iter acc; simp [streamBody]
  | cons e rest ih =>
      intro iter acc
      have hcond : ¬ (iter % 5000 = 0 ∧ shutdown iter = true) := by simp [hsd]
      by_cases hbad : decodeEntry e = none
      · rw [streamBody_cons_bad shutdown e rest iter acc hcond hbad, ih]
        simp [List.filterMap_cons, hbad]
      · obtain ⟨k, c, hk, hv⟩ := decodeEntry_isSome (Option.isSome_iff_ne_none.mpr hbad)
        rw [streamBody_cons_ok shutdown e rest iter acc k c hcond hk hv, ih]
        simp [List.filterMap_cons, decodeEntry, hk, hv]

theorem CreateUTXOSnapshot_no_shutdown (coins_count : Nat) (tip : CBlockIndex)
    (shutdown : Nat → Bool) (entries : List CursorEntry)
    (hsd : ∀ n, shutdown n = false) :
    CreateUTXOSnapshot true coins_count tip shutdown entries =
      .ok ({ header := some ⟨tip.blockhash, coins_count, tip.nChainTx⟩,
             body := entries.filterMap decodeEntry },
           { coins_written := coins_count, base_hash := tip.blockhash,
             base_height := tip.nHeight }) := by
  unfold CreateUTXOSnapshot
  rw [if_neg (by simp), streamBody_no_shutdown shutdown hsd entries 0 []]
  simp

theorem CreateUTXOSnapshot_ok (statsOk : Bool) (coins_count : Nat) (tip : CBlockIndex)
    (shutdown : Nat → Bool) (entries : List CursorEntry) (c : SnapContent)
    (res : SnapResult)
    (h : CreateUTXOSnapshot statsOk coins_count tip shutdown entries = .ok (c, res)) :
    c = { header := some ⟨tip.blockhash, coins_count, tip.nChainTx⟩,
          body := entries.filterMap decodeEntry } := by
  unfold CreateUTXOSnapshot at h
  by_cases hst : statsOk = false
  · rw [if_pos hst] at h; simp at h
  · rw [if_neg hst] at h
    cases hs : streamBody shutdown entries 0 [] with
    | error b => rw [hs] at h; simp at h
    | ok body =>
        rw [hs] at h
        have hb := streamBody_ok shutdown entries 0 [] body hs
        simp only [Except.ok.injEq, Prod.mk.injEq] at h
        rw [← h.1, hb]
        simp

theorem fsLookup_set_self (fsys : FS) (p : String) (c : SnapContent) :
    fsLookup (fsSet fsys p c) p = some c := by
  unfold fsLookup fsSet
  rw [List.find?_cons_of_pos _ (by simp)]
  rfl

theorem find?_filter_keep (p q : String) (h : ¬ q = p) :
    ∀ l : FS, (l.filter (fun e => decide (e.1 ≠ p))).find? (fun e => decide (e.1 = q))
        = l.find? (fun e => decide (e.1 = q)) := by
  intro l
  induction l with
  | nil => rfl
  | cons e rest ih =>
      by_cases he : e.1 = q
      · have hne : e.1 ≠ p := by rw [he]; exact h
        rw [List.filter_cons_of_pos (by simp [hne]),
          List.find?_cons_of_pos _ (by simp [he]),
          List.find?_cons_of_pos _ (by simp [he])]
      · by_cases hep : e.1 = p
        · rw [List.filter_cons_of_neg (by simp [hep]),
            List.find?_cons_of_neg _ (by simp [he]), ih]
        · rw [List.filter_cons_of_pos (by simp [hep]),
            List.find?_cons_of_neg _ (by simp [he]),
            List.find?_cons_of_neg _ (by simp [he]), ih]

theorem fsLookup_set_ne (fsys : FS) (p q : String) (c : SnapContent) (h : ¬ q = p) :
    fsLookup (fsSet fsys p c) q = fsLookup fsys q := by
  unfold fsLookup fsSet
  rw [List.find?_cons_of_neg _ (by simp; exact fun hpq => h hpq.symm), find?_filter_keep p q h]

theorem fsRename_self_lookup (fsys : FS) (t p : String) (c : SnapContent) :
    fsLookup (fsRename (fsSet fsys t c) t p) p = some c := by
  unfold fsRename
  rw [fsLookup_set_self]
  exact fsLookup_set_self _ _ _

/-- C10: in the snapshot streaming loop a record whose key or value fails
to decode is skipped without error and without being written — the body
is exactly the decodable records — and the returned `coins_written` is
always the stats count computed before streaming, independent of how many
records were written. -/
theorem snapshot_skips_undecodable (coins_count : Nat) (tip : CBlockIndex)
    (shutdown : Nat → Bool) (entries : List CursorEntry)
    (hsd : ∀ n, shutdown n = false) :
    CreateUTXOSnapshot true coins_count tip shutdown entries =
      .ok ({ header := some ⟨tip.blockhash, coins_count, tip.nChainTx⟩,
             body := entries.filterMap decodeEntry },
           { coins_written := coins_count, base_hash := tip.blockhash,
             base_height := tip.nHeight }) :=
  CreateUTXOSnapshot_no_shutdown coins_count tip shutdown entries hsd

/-- Witness for C10: a store with one decodable and one corrupt record. -/
theorem snapshot_skips_undecodable_w :
    CreateUTXOSnapshot true 2 ⟨[5], 2, 9⟩ (fun _ => false)
      [⟨some ⟨[1, 2], 0⟩, some ⟨⟨5, [7]⟩, false, false, 3⟩⟩, ⟨none, none⟩] =
      .ok ({ header := some ⟨[5], 2, 9⟩,
             body := [(⟨[1, 2], 0⟩, ⟨⟨5, [7]⟩, false, false, 3⟩)] },
           { coins_written := 2, base_hash := [5], base_height := 2 }) :=
  snapshot_skips_undecodable 2 ⟨[5], 2, 9⟩ (fun _ => false)
    [⟨some ⟨[1, 2], 0⟩, some ⟨⟨5, [7]⟩, false, false, 3⟩⟩, ⟨none, none⟩] (fun _ => rfl)

/-- C2 (amended): the export writes exactly the records that decode; the
header's `coin_count` and the returned `coins_written` are the
stats-computed count; no defensive assertion compares that count with the
number of records actually written — a mismatch goes unnoticed and the
export returns normally. -/
theorem snapshot_count_no_assertion (coins_count : Nat) (tip : CBlockIndex)
    (shutdown : Nat → Bool) (entries : List CursorEntry)
    (hsd : ∀ n, shutdown n = false) :
    (∀ (content : SnapContent) (res : SnapResult),
      CreateUTXOSnapshot true coins_count tip shutdown entries = .ok (content, res) →
      res.coins_written = coins_count ∧ content.body = entries.filterMap decodeEntry) ∧
    CreateUTXOSnapshot true coins_count tip shutdown entries =
      .ok ({ header := some ⟨tip.blockhash, coins_count, tip.nChainTx⟩,
             body := entries.filterMap decodeEntry },
           { coins_written := coins_count, base_hash := tip.blockhash,
             base_height := tip.nHeight }) := by
  have h := CreateUTXOSnapshot_no_shutdown coins_count tip shutdown entries hsd
  refine ⟨?_, h⟩
  intro content res hok
  rw [h] at hok
  simp only [Except.ok.injEq, Prod.mk.injEq] at hok
  rw [← hok.1, ← hok.2]
  exact ⟨rfl, rfl⟩

/-- Witness for C2's amended theorem. -/
theorem snapshot_count_no_assertion_w :
    CreateUTXOSnapshot true 1 ⟨[5], 2, 9⟩ (fun _ => false) [⟨none, none⟩] =
      .ok ({ header := some ⟨[5], 1, 9⟩, body := [] },
           { coins_written := 1, base_hash := [5], base_height := 2 }) :=
  (snapshot_count_no_assertion 1 ⟨[5], 2, 9⟩ (fun _ => false) [⟨none, none⟩]
    (fun _ => rfl)).2

/-- C2 counterexample: a store whose only record fails to decode has zero
records written while the header records `coin_count = 1`; the export
returns normally (`coins_written = 1`) — no defensive assertion fires on
the mismatch. -/
theorem snapshot_count_mismatch_cex :
    CreateUTXOSnapshot true 1 ⟨[6], 4, 8⟩ (fun _ => false) [⟨none, some ⟨⟨5, [7]⟩, false, false, 3⟩⟩] =
      .ok ({ header := some ⟨[6], 1, 8⟩, body := [] },
           { coins_written := 1, base_hash := [6], base_height := 4 }) ∧
    ([] : List (COutPoint × Coin)).length ≠ 1 := by
  exact ⟨rfl, by simp⟩

theorem tempPathOf_ne (p : String) : tempPathOf p ≠ p := by
  intro h
  have hl := congrArg String.length h
  rw [tempPathOf, String.length_append] at hl
  have h11 : ".incomplete".length = 11 := rfl
  omega

/-- C3: the final path is never observable in a partial state: the writer
only writes to the distinct temporary path, on any failure or
cancellation mid-stream the final path is never created, and on success
the final path holds the complete snapshot (header plus every decodable
record). -/
theorem dump_publish_atomic (fsys : FS) (path : String) (statsOk : Bool)
    (coins_count : Nat) (tip : CBlockIndex) (shutdown : Nat → Bool)
    (entries : List CursorEntry)
    (hfree : fsExists fsys path = false) :
    tempPathOf path ≠ path ∧
    (∀ err : DumpError,
      (dumptxoutset fsys path statsOk coins_count tip shutdown entries).1 = .error err →
      fsLookup (dumptxoutset fsys path statsOk coins_count tip shutdown entries).2 path
        = none) ∧
    (∀ res : SnapResult,
      (dumptxoutset fsys path statsOk coins_count tip shutdown entries).1 = .ok res →
      fsLookup (dumptxoutset fsys path statsOk coins_count tip shutdown entries).2 path
        = some { header := some ⟨tip.blockhash, coins_count, tip.nChainTx⟩,
                 body := entries.filterMap decodeEntry }) := by
  have hnone : fsLookup fsys path = none := by
    rw [fsExists] at hfree
    cases hl : fsLookup fsys path
    · rfl
    · rw [hl] at hfree; simp at hfree
  refine ⟨tempPathOf_ne path, ?_, ?_⟩
  · intro err herr
    cases hsnap : CreateUTXOSnapshot statsOk coins_count tip shutdown entries with
    | error ec =>
        cases ec with
        | mk errK cont =>
            simp only [dumptxoutset, hfree, Bool.false_eq_true, if_false, hsnap]
            rw [fsLookup_set_ne _ _ _ _ (Ne.symm (tempPathOf_ne path)),
              fsLookup_set_ne _ _ _ _ (Ne.symm (tempPathOf_ne path)), hnone]
    | ok cr =>
        cases cr with
        | mk cont resK =>
            simp only [dumptxoutset, hfree, Bool.false_eq_true, if_false, hsnap] at herr
            simp at herr
  · intro res hres
    cases hsnap : CreateUTXOSnapshot statsOk coins_count tip shutdown entries with
    | error ec =>
        cases ec with
        | mk errK cont =>
            simp only [dumptxoutset, hfree, Bool.false_eq_true, if_false, hsnap] at hres
            simp at hres
    | ok cr =>
        cases cr with
        | mk cont resK =>
            simp only [dumptxoutset, hfree, Bool.false_eq_true, if_false, hsnap]
            rw [CreateUTXOSnapshot_ok statsOk coins_count tip shutdown entries
              cont resK hsnap]
            exact fsRename_self_lookup _ _ _ _

/-- Witness for C3: a successful export publishes the full snapshot at
the final path. -/
theorem dump_publish_atomic_w :
    tempPathOf "utxo.dat" ≠ "utxo.dat" ∧
    fsLookup (dumptxoutset [] "utxo.dat" true 1 ⟨[5], 2, 9⟩ (fun _ => false)
        [⟨some ⟨[1, 2], 0⟩, some ⟨⟨5, [7]⟩, false, false, 3⟩⟩]).2 "utxo.dat" =
      some { header := some ⟨[5], 1, 9⟩,
             body := [(⟨[1, 2], 0⟩, ⟨⟨5, [7]⟩, false, false, 3⟩)] } := by
  have h := dump_publish_atomic [] "utxo.dat" true 1 ⟨[5], 2, 9⟩ (fun _ => false)
    [⟨some ⟨[1, 2], 0⟩, some ⟨⟨5, [7]⟩, false, false, 3⟩⟩] rfl
  exact ⟨h.1, h.2.2 ⟨1, [5], 2⟩ rfl⟩

/-- C8: an export whose destination already exists is rejected
immediately: the filesystem is returned unchanged (no temporary file is
even created) and the outcome is the same for every value of the
coordination-window inputs (stats, cursor contents, interruption
callback), i.e. the coordination window is never entered. -/
theorem dump_rejects_existing (fsys : FS) (path : String) (statsOk : Bool)
    (coins_count : Nat) (tip : CBlockIndex) (shutdown : Nat → Bool)
    (entries : List CursorEntry)
    (hex : fsExists fsys path = true) :
    dumptxoutset fsys path statsOk coins_count tip shutdown entries
      = (.error .invalidParameter, fsys) := by
  simp [dumptxoutset, hex]

/-- Witness for C8 at a concrete occupied destination. -/
theorem dump_rejects_existing_w :
    dumptxoutset [("utxo.dat", ⟨none, []⟩)] "utxo.dat" true 5 ⟨[5], 2, 9⟩
      (fun _ => true) [⟨none, none⟩]
      = (.error .invalidParameter, [("utxo.dat", ⟨none, []⟩)]) :=
  dump_rejects_existing [("utxo.dat", ⟨none, []⟩)] "utxo.dat" true 5 ⟨[5], 2, 9⟩
    (fun _ => true) [⟨none, none⟩] rfl

theorem bytesLE_cons_le {x y : Nat} {xs ys : List Nat}
    (h : bytesLE (x :: xs) (y :: ys) = true) : x ≤ y := by
  unfold bytesLE at h
  by_cases hxy : x < y
  · omega
  · rw [if_neg hxy] at h
    by_cases heq : x = y
    · omega
    · rw [if_neg heq] at h; simp at h

theorem bytesLE_cons_eq {x : Nat} {xs ys : List Nat}
    (h : bytesLE (x :: xs) (x :: ys) = true) : bytesLE xs ys = true := by
  unfold bytesLE at h
  rw [if_neg (lt_irrefl x), if_pos rfl] at h
  exact h

theorem wfKey_two (k : COutPoint) (h : wfKey k) :
    ∃ a a2 t, k.hash = a :: a2 :: t ∧ a < 256 ∧ a2 < 256 := by
  obtain ⟨hlen, hb⟩ := h
  cases hc : k.hash with
  | nil => rw [hc] at hlen; simp at hlen
  | cons a t1 =>
      cases hc2 : t1 with
      | nil => rw [hc, hc2] at hlen; simp at hlen
      | cons a2 t =>
          refine ⟨a, a2, t, rfl, ?_, ?_⟩
          · exact hb a (by rw [hc]; simp)
          · exact hb a2 (by rw [hc, hc2]; simp)

theorem highOf_mono (k1 k2 : COutPoint) (h1 : wfKey k1) (h2 : wfKey k2)
    (hle : bytesLE k1.hash k2.hash = true) : highOf k1 ≤ highOf k2 := by
  obtain ⟨a, a2, t1, ha, ha256, ha2256⟩ := wfKey_two k1 h1
  obtain ⟨b, b2, t2, hb, _, _⟩ := wfKey_two k2 h2
  rw [ha, hb] at hle
  have hab : a ≤ b := bytesLE_cons_le hle
  unfold highOf
  rw [ha, hb]
  simp only [List.headD_cons, List.tail_cons]
  by_cases heq : a = b
  · subst heq
    have htail := bytesLE_cons_eq hle
    have := bytesLE_cons_le htail
    omega
  · omega

theorem progressOf_mono (k1 k2 : COutPoint) (h1 : wfKey k1) (h2 : wfKey k2)
    (hle : bytesLE k1.hash k2.hash = true) : progressOf k1 ≤ progressOf k2 := by
  have := highOf_mono k1 k2 h1 h2 hle
  unfold progressOf
  omega

theorem progressOf_le_100 (k : COutPoint) (h : wfKey k) : progressOf k ≤ 100 := by
  obtain ⟨a, a2, t, ha, ha256, ha2256⟩ := wfKey_two k h
  have : highOf k ≤ 65535 := by
    unfold highOf
    rw [ha]
    simp only [List.headD_cons, List.tail_cons]
    omega
  unfold progressOf
  omega

theorem scanLoop_trace_chain (should_abort : Nat → Bool) (needles : List Script)
    (habort : ∀ n, should_abort n = false) :
    ∀ (entries : List CursorEntry) (count : Nat) (acc : List (COutPoint × Coin))
      (h : Nat) (t : List Nat),
      (∀ e ∈ entries, (decodeEntry e).isSome) →
      (∀ p ∈ entries.filterMap decodeEntry, wfKey p.1) →
      List.Pairwise (fun p q => bytesLE p.1.hash q.1.hash = true)
        (entries.filterMap decodeEntry) →
      (∀ p ∈ entries.filterMap decodeEntry, h ≤ progressOf p.1) →
      h ≤ 100 →
      List.Chain' (fun a b => b ≤ a) (h :: t) →
      List.Chain' (fun a b => a ≤ b)
        ((scanLoop should_abort needles entries count h acc (h :: t)).trace) := by
  intro entries
  induction entries with
  | nil =>
      intro count acc h t _ _ _ _ hle hchain
      show List.Chain' (fun a b => a ≤ b) ((100 :: h :: t).reverse)
      rw [List.chain'_reverse]
      exact List.chain'_cons.mpr ⟨hle, hchain⟩
  | cons e rest ih =>
      intro count acc h t hdec hwf hsorted hbelow hle hchain
      obtain ⟨k, c, hk, hv⟩ := decodeEntry_isSome (hdec e (by simp))
      have hfm : (e :: rest).filterMap decodeEntry
          = (k, c) :: rest.filterMap decodeEntry := by
        simp [List.filterMap_cons, decodeEntry, hk, hv]
      rw [hfm] at hwf hsorted hbelow
      rw [List.pairwise_cons] at hsorted
      have hdec' : ∀ x ∈ rest, (decodeEntry x).isSome := fun x hx => hdec x (by simp [hx])
      have hwfk : wfKey k := hwf (k, c) (by simp)
      have hwf' : ∀ p ∈ rest.filterMap decodeEntry, wfKey p.1 :=
        fun p hp => hwf p (by simp [hp])
      rw [scanLoop_cons_ok _ _ _ _ _ _ _ _ k c hk hv, if_neg (by simp [habort])]
      by_cases h256 : (count + 1) % 256 = 0
      · rw [if_pos h256]
        apply ih (count + 1) (matchStep needles acc k c) (progressOf k) (h :: t)
          hdec' hwf' hsorted.2
        · intro p hp
          exact progressOf_mono k p.1 hwfk (hwf' p hp) (hsorted.1 p hp)
        · exact progressOf_le_100 k hwfk
        · exact List.chain'_cons.mpr ⟨hbelow (k, c) (by simp), hchain⟩
      · rw [if_neg h256]
        apply ih (count + 1) (matchStep needles acc k c) h t
          hdec' hwf' hsorted.2
        · intro p hp
          exact hbelow p (by simp [hp])
        · exact hle
        · exact hchain

/-- C5: over an ordered cursor (keys in the database's lexicographic
order) run to natural exhaustion, the successive values of the shared
progress gauge never decrease, and the final value on completion is
exactly 100. -/
theorem scan_progress_monotone (should_abort : Nat → Bool) (needles : List Script)
    (entries : List CursorEntry)
    (hdec : ∀ e ∈ entries, (decodeEntry e).isSome)
    (habort : ∀ n, should_abort n = false)
    (hwf : ∀ p ∈ entries.filterMap decodeEntry, wfKey p.1)
    (hsorted : List.Pairwise (fun p q => bytesLE p.1.hash q.1.hash = true)
      (entries.filterMap decodeEntry)) :
    List.Chain' (fun a b => a ≤ b) (FindScriptPubKey should_abort needles entries).trace ∧
    (FindScriptPubKey should_abort needles entries).scan_progress = 100 ∧
    (FindScriptPubKey should_abort needles entries).trace.getLast? = some 100 := by
  have h1 := scanLoop_trace_chain should_abort needles habort entries 0 [] 0 []
    hdec hwf hsorted (fun p _ => Nat.zero_le _) (by omega) (List.chain'_singleton 0)
  have h2 := scanLoop_no_abort should_abort needles habort entries 0 0 [] [0] hdec
  exact ⟨h1, h2.2.2.2.1, h2.2.2.2.2⟩

/-- Witness for C5: two records with lexicographically increasing keys. -/
theorem scan_progress_monotone_w :
    List.Chain' (fun a b => a ≤ b)
      (FindScriptPubKey (fun _ => false) []
        [⟨some ⟨[1, 2], 0⟩, some ⟨⟨5, [7]⟩, false, false, 3⟩⟩,
         ⟨some ⟨[3, 4], 1⟩, some ⟨⟨9, [8]⟩, false, false, 4⟩⟩]).trace ∧
    (FindScriptPubKey (fun _ => false) []
      [⟨some ⟨[1, 2], 0⟩, some ⟨⟨5, [7]⟩, false, false, 3⟩⟩,
       ⟨some ⟨[3, 4], 1⟩, some ⟨⟨9, [8]⟩, false, false, 4⟩⟩]).scan_progress = 100 ∧
    (FindScriptPubKey (fun _ => false) []
      [⟨some ⟨[1, 2], 0⟩, some ⟨⟨5, [7]⟩, false, false, 3⟩⟩,
       ⟨some ⟨[3, 4], 1⟩, some ⟨⟨9, [8]⟩, false, false, 4⟩⟩]).trace.getLast? = some 100 :=
  scan_progress_monotone (fun _ => false) []
    [⟨some ⟨[1, 2], 0⟩, some ⟨⟨5, [7]⟩, false, false, 3⟩⟩,
     ⟨some ⟨[3, 4], 1⟩, some ⟨⟨9, [8]⟩, false, false, 4⟩⟩]
    (by decide) (fun _ => rfl) (by decide) (by decide)
